import Mathlib

/-!
Shallow embedding of the synthetic-person generator
(`src/solutions/generate_fake_people.py` and the near-duplicate calibration
profile `src/exercises/02_workflows/05_synthetic_data/generate_fake_people_Version2.py`).

Modelling conventions:
* Python floats are modelled as exact rationals (the claims under study are
  about ranges, membership, ordering and structural equality, never about
  floating-point rounding).
* The pseudo-random engine (`random.Random`) is an external collaborator.
  It is modelled as two tapes: `tri` supplies the value returned by the
  i-th `rng.triangular` call (the engine contract bounds it by the call's
  low/high arguments), `uni` supplies the uniform variate consumed by the
  i-th `rng.choices` call.  `random.choices` itself (cumulative weights +
  `bisect_right`) is transcribed from CPython, since the claims depend on
  its membership behaviour.
* The name/locale lexicon provider (`Faker`) is an external collaborator,
  modelled as a tape of strings seeded together with the run.
* `int()` truncation toward zero is `pyint`; Python `%` on a zero modulus
  raises `ZeroDivisionError`, modelled by `pymod` returning `Except`.
-/

/-- Python `int(q)`: truncation toward zero. -/
def pyint (q : ℚ) : ℤ :=
  if 0 ≤ q then ⌊q⌋ else -⌊-q⌋

/-- Python `%` with its `ZeroDivisionError` on a zero modulus
(operands here are always nonnegative, where Python `%` agrees with `Nat.mod`). -/
inductive PyArithErr
  | zeroDivision
deriving DecidableEq, Repr

def pymod (a b : ℕ) : Except PyArithErr ℕ :=
  if b = 0 then .error .zeroDivision else .ok (a % b)

/-- Running cumulative sums, as computed by `itertools.accumulate`
inside `random.choices`. -/
def cumFrom (acc : ℚ) : List ℚ → List ℚ
  | [] => []
  | x :: xs => (acc + x) :: cumFrom (acc + x) xs

def cumSum (l : List ℚ) : List ℚ := cumFrom 0 l

/-- CPython `bisect.bisect_right(a, x, lo, hi)`:
while lo < hi: mid = (lo+hi)//2; if x < a[mid] then hi = mid else lo = mid+1.
The loop is phrased with explicit fuel so it reduces structurally; each
iteration shrinks `hi - lo` by at least one, so `hi - lo` units of fuel
replicate the `while` loop exactly. -/
def bisectRightAux (a : List ℚ) (x : ℚ) : ℕ → ℕ → ℕ → ℕ
  | 0, lo, _hi => lo
  | fuel + 1, lo, hi =>
      if lo < hi then
        if x < a.getD ((lo + hi) / 2) 0 then bisectRightAux a x fuel lo ((lo + hi) / 2)
        else bisectRightAux a x fuel ((lo + hi) / 2 + 1) hi
      else lo

def bisectRight (a : List ℚ) (x : ℚ) (lo hi : ℕ) : ℕ :=
  bisectRightAux a x (hi - lo) lo hi

/-- CPython `random.choices(population, weights, k=1)[0]`:
`population[bisect_right(cum_weights, u * total, 0, n - 1)]` where
`u = random()` and `total = cum_weights[-1]`.  The `dflt` argument is a
modelling artifact of `List.getD`; the computed index never exceeds
`n - 1`, so it is never consulted for a nonempty population. -/
def choicesOne (population : List α) (dflt : α) (weights : List ℚ) (u : ℚ) : α :=
  let cw := cumSum weights
  let total := (cw.getLast?).getD 0
  population.getD (bisectRight cw (u * total) 0 (population.length - 1)) dflt

/-- `MARITAL_STATUSES = ["single", "married", "divorced", "widowed"]`. -/
def MARITAL_STATUSES : List String := ["single", "married", "divorced", "widowed"]

/-- Weight table of `choose_marital_status` in `src/solutions/generate_fake_people.py`. -/
def solutions_status_weights (age : ℤ) : List ℚ :=
  if age < 22 then [94/100, 4/100, 1/100, 1/100]
  else if age < 30 then [6/10, 35/100, 3/100, 2/100]
  else if age < 45 then [25/100, 65/100, 7/100, 3/100]
  else if age < 65 then [15/100, 7/10, 1/10, 5/100]
  else [1/10, 65/100, 1/10, 15/100]

/-- Weight table of `choose_marital_status` in `generate_fake_people_Version2.py`. -/
def v2_status_weights (age : ℤ) : List ℚ :=
  if age < 22 then [95/100, 3/100, 1/100, 1/100]
  else if age < 30 then [55/100, 40/100, 3/100, 2/100]
  else if age < 45 then [20/100, 70/100, 7/100, 3/100]
  else if age < 65 then [15/100, 70/100, 10/100, 5/100]
  else [10/100, 60/100, 10/100, 20/100]

/-- Weight table of `sample_children` (after the `age < 22` guard)
in `src/solutions/generate_fake_people.py`. -/
def solutions_children_weights (age : ℤ) (marital_status : String) : List ℚ :=
  if marital_status = "single" then
    [85/100, 1/10, 4/100, 9/1000, 9/10000, 1/10000]
  else if marital_status = "married" then
    if age < 30 then [5/10, 35/100, 12/100, 27/1000, 28/10000, 2/10000]
    else if age < 40 then [25/100, 35/100, 28/100, 1/10, 2/100, 5/1000]
    else if age < 55 then [2/10, 3/10, 3/10, 15/100, 4/100, 1/100]
    else [2/10, 3/10, 3/10, 15/100, 4/100, 1/100]
  else if marital_status = "divorced" then
    [45/100, 3/10, 18/100, 6/100, 1/100, 5/1000]
  else
    [4/10, 3/10, 2/10, 8/100, 15/1000, 5/1000]

/-- Weight table of `sample_children` (after the `age < 22` guard)
in `generate_fake_people_Version2.py`. -/
def v2_children_weights (age : ℤ) (marital_status : String) : List ℚ :=
  if marital_status = "single" then
    [86/100, 10/100, 35/1000, 4/1000, 9/10000, 1/10000]
  else if marital_status = "married" then
    if age < 30 then [40/100, 40/100, 16/100, 35/1000, 4/1000, 1/1000]
    else if age < 40 then [15/100, 25/100, 35/100, 20/100, 45/1000, 1/100]
    else if age < 55 then [10/100, 20/100, 32/100, 25/100, 10/100, 3/100]
    else [12/100, 22/100, 30/100, 22/100, 10/100, 4/100]
  else if marital_status = "divorced" then
    [35/100, 30/100, 22/100, 9/100, 3/100, 1/100]
  else
    [30/100, 30/100, 22/100, 12/100, 45/1000, 15/1000]

/-- A calibration profile: the constants in which the two generator copies
differ.  `ageLow`/`ageHigh`/`ageMode` are the arguments the sampler passes
to the external triangular-distribution engine. -/
structure Profile where
  ageLow : ℚ
  ageHigh : ℚ
  ageMode : ℚ
  statusWeights : ℤ → List ℚ
  childrenWeights : ℤ → String → List ℚ

/-- `src/solutions/generate_fake_people.py`: triangular(18, 90, 32). -/
def solutionsProfile : Profile :=
  { ageLow := 18, ageHigh := 90, ageMode := 32
    statusWeights := solutions_status_weights
    childrenWeights := solutions_children_weights }

/-- `generate_fake_people_Version2.py`: triangular(18, 95, 30). -/
def v2Profile : Profile :=
  { ageLow := 18, ageHigh := 95, ageMode := 30
    statusWeights := v2_status_weights
    childrenWeights := v2_children_weights }

/-- One generated person record (value type, five fields). -/
structure Person where
  name : String
  family_name : String
  marital_status : String
  age : ℤ
  number_of_children : ℕ
deriving DecidableEq, Repr, Inhabited

/-- The seeded pseudo-random source, as the deterministic engine it is:
`tri i` is the value returned by the i-th `rng.triangular` call,
`uni i` the uniform consumed by the i-th `rng.choices` call. -/
structure Rng where
  tri : ℕ → ℚ
  uni : ℕ → ℚ

/-- The seeded name provider (`Faker`): a deterministic tape of strings,
one consumed per `first_name()`/`last_name()` call. -/
structure Fak where
  vals : ℕ → String

/-- One primitive draw event, recorded in consumption order. -/
inductive DrawEvent
  | ageDraw
  | statusDraw
  | childrenDraw
  | nameDraw
deriving DecidableEq, Repr

/-- Cursor into the random tapes, plus the trace of draws consumed so far. -/
structure Cursor where
  triPos : ℕ := 0
  uniPos : ℕ := 0
  fakPos : ℕ := 0
  trace : List DrawEvent := []

def consumeTri (rng : Rng) (c : Cursor) : ℚ × Cursor :=
  (rng.tri c.triPos,
   { c with triPos := c.triPos + 1, trace := c.trace ++ [.ageDraw] })

def consumeUni (rng : Rng) (ev : DrawEvent) (c : Cursor) : ℚ × Cursor :=
  (rng.uni c.uniPos,
   { c with uniPos := c.uniPos + 1, trace := c.trace ++ [ev] })

def consumeFak (fak : Fak) (c : Cursor) : String × Cursor :=
  (fak.vals c.fakPos,
   { c with fakPos := c.fakPos + 1, trace := c.trace ++ [.nameDraw] })

/-- `sample_age`: `int(rng.triangular(low, high, mode))`. -/
def sample_age (rng : Rng) (c : Cursor) : ℤ × Cursor :=
  let (t, c) := consumeTri rng c
  (pyint t, c)

/-- `choose_marital_status`: one weighted categorical draw over
`MARITAL_STATUSES`, weights selected by the profile's age-bracket chain. -/
def choose_marital_status (prof : Profile) (rng : Rng) (c : Cursor) (age : ℤ) :
    String × Cursor :=
  let (u, c) := consumeUni rng .statusDraw c
  (choicesOne MARITAL_STATUSES "single" (prof.statusWeights age) u, c)

/-- `sample_children`: returns 0 without drawing when `age < 22`, otherwise
one weighted categorical draw over `[0, 1, 2, 3, 4, 5]`. -/
def sample_children (prof : Profile) (rng : Rng) (c : Cursor) (age : ℤ)
    (marital_status : String) : ℕ × Cursor :=
  if age < 22 then (0, c)
  else
    let (u, c) := consumeUni rng .childrenDraw c
    (choicesOne [0, 1, 2, 3, 4, 5] 0 (prof.childrenWeights age marital_status) u, c)

/-- One iteration of the `generate_people` loop: age draw, then status draw,
then children draw, then the two name-provider calls. -/
def genStep (prof : Profile) (rng : Rng) (fak : Fak) (c : Cursor) :
    Person × Cursor :=
  let (age, c) := sample_age rng c
  let (ms, c) := choose_marital_status prof rng c age
  let (ch, c) := sample_children prof rng c age ms
  let (fn, c) := consumeFak fak c
  let (ln, c) := consumeFak fak c
  ({ name := fn, family_name := ln, marital_status := ms,
     age := age, number_of_children := ch }, c)

def genLoop (prof : Profile) (rng : Rng) (fak : Fak) :
    ℕ → Cursor → List Person × Cursor
  | 0, c => ([], c)
  | n + 1, c =>
      let (p, c) := genStep prof rng fak c
      let (ps, c) := genLoop prof rng fak n c
      (p :: ps, c)

/-- `generate_people(n, locale, seed)`: the list of records produced by a run,
together with the trace of primitive draws in consumption order. -/
def generate_people (prof : Profile) (rng : Rng) (fak : Fak) (n : ℕ) :
    List Person × List DrawEvent :=
  let (ps, c) := genLoop prof rng fak n {}
  (ps, c.trace)

/-!
### Delimited-text serializer (`write_csv`)

`csv.DictWriter` with the default dialect: comma delimiter, minimal quoting
(a field is quoted when it contains the delimiter, the quote character, or a
line-terminator character; internal quotes are doubled), `\r\n` terminator,
non-string cell values rendered with `str()`.
-/

def csvNeedsQuote (s : String) : Bool :=
  s.any fun ch => ch = ',' || ch = '"' || ch = '\r' || ch = '\n'

def csvQuoteField (s : String) : String :=
  if csvNeedsQuote s then "\"" ++ s.replace "\"" "\"\"" ++ "\""
  else s

def CSV_FIELDNAMES : List String :=
  ["name", "family_name", "marital_status", "age", "number_of_children"]

def csvHeader : String := String.intercalate "," (CSV_FIELDNAMES.map csvQuoteField)

def csvLine (p : Person) : String :=
  String.intercalate ","
    ([p.name, p.family_name, p.marital_status,
      toString p.age, toString p.number_of_children].map csvQuoteField)

/-- `write_csv`: header line, then one line per record, in input order. -/
def write_csv_lines (rows : List Person) : List String :=
  csvHeader :: rows.map csvLine

/-- The byte content of the text output: each line `\r\n`-terminated. -/
def write_csv_content (rows : List Person) : String :=
  String.join ((write_csv_lines rows).map (fun l => l ++ "\r\n"))

/-!
### Columnar serializer (`write_parquet`)

The batch buffer is the dict of five column lists, exactly as in the source;
`pa.Table.from_pydict` / `ParquetWriter` are the external backend, modelled
as the actions `createWriter` (opens the output file and writes the schema),
`writeTable` (appends one compressed batch) and `close` (finalizes footer
and metadata).  Rows arrive from a fallible iterator: an `.error` element
models an exception raised mid-stream by the producing generator.
-/

structure Batch where
  name : List String
  family_name : List String
  marital_status : List String
  age : List ℤ
  number_of_children : List ℕ
deriving DecidableEq, Repr

def emptyBatch : Batch := ⟨[], [], [], [], []⟩

/-- `for k in batch: batch[k].append(row[k])`. -/
def appendRow (b : Batch) (p : Person) : Batch :=
  { name := b.name ++ [p.name]
    family_name := b.family_name ++ [p.family_name]
    marital_status := b.marital_status ++ [p.marital_status]
    age := b.age ++ [p.age]
    number_of_children := b.number_of_children ++ [p.number_of_children] }

/-- Column images of a row list: the batch dict holding exactly those rows. -/
def colsOf (l : List Person) : Batch :=
  ⟨l.map Person.name, l.map Person.family_name, l.map Person.marital_status,
   l.map Person.age, l.map Person.number_of_children⟩

/-- Reading a batch back row-wise (zip of its five columns). -/
def rowsOfBatch (b : Batch) : List Person :=
  (((b.name.zip b.family_name).zip b.marital_status).zip
      (b.age.zip b.number_of_children)).map
    fun x => ⟨x.1.1.1, x.1.1.2, x.1.2, x.2.1, x.2.2⟩

/-- Observable effects of the columnar writer and the process wrapper. -/
inductive PaAction
  | diag (msg : String)
  | exit (code : ℕ)
  | createWriter
  | writeTable (b : Batch)
  | close
deriving DecidableEq, Repr

/-- A mid-stream failure of the row iterator. -/
inductive RowErr
  | ioError
deriving DecidableEq, Repr

inductive PqErr
  | exitedNoParquet
  | zeroDivision
  | rowError (e : RowErr)
deriving DecidableEq, Repr

structure PqSt where
  batch : Batch
  count : ℕ
  created : Bool
  acts : List PaAction
deriving Repr

def pqInit : PqSt := ⟨emptyBatch, 0, false, []⟩

/-- Flush the buffer: build the table, create the writer if absent
(this opens the output file), write the batch, clear the buffer. -/
def pqFlush (st : PqSt) : PqSt :=
  { batch := emptyBatch
    count := st.count
    created := true
    acts := st.acts ++ (if st.created then [] else [.createWriter])
                    ++ [.writeTable st.batch] }

/-- The `for row in rows` loop body of `write_parquet`: append the row to
every column, increment `count`, test `count % chunk_size == 0`, flush on a
full buffer.  A row error or a `ZeroDivisionError` aborts the loop and is
reported to the enclosing try/finally. -/
def pqLoop (chunk_size : ℕ) :
    List (Except RowErr Person) → PqSt → PqSt × Option PqErr
  | [], st => (st, none)
  | .error e :: _, st => (st, some (.rowError e))
  | .ok p :: rest, st =>
      let st := { st with batch := appendRow st.batch p, count := st.count + 1 }
      match pymod st.count chunk_size with
      | .error _ => (st, some .zeroDivision)
      | .ok r =>
          if r = 0 then pqLoop chunk_size rest (pqFlush st)
          else pqLoop chunk_size rest st

/-- `if batch["name"]:` after the loop — flush a non-empty trailing batch,
unless an exception is already propagating. -/
def pqTailFlush (r : PqSt × Option PqErr) : PqSt :=
  match r.2 with
  | some _ => r.1
  | none => if r.1.batch.name ≠ [] then pqFlush r.1 else r.1

/-- `write_parquet(path, rows, chunk_size)`: fail fast when the backend is
unavailable; otherwise run the buffered loop, flush a non-empty trailing
batch, and in the `finally` block close the writer when it was created.
Returns the terminal error (if any) and the acquired-effect trace. -/
def write_parquet (have_parquet : Bool) (rows : List (Except RowErr Person))
    (chunk_size : ℕ) : Option PqErr × List PaAction :=
  if have_parquet then
    ((pqLoop chunk_size rows pqInit).2,
     (pqTailFlush (pqLoop chunk_size rows pqInit)).acts
       ++ (if (pqTailFlush (pqLoop chunk_size rows pqInit)).created
           then [.close] else []))
  else
    (some .exitedNoParquet,
     [.diag "Parquet support requires pyarrow. Install with: pip install pyarrow",
      .exit 1])

/-- The rows present in the columnar output: concatenation, in write order,
of every flushed batch. -/
def flushedRows (acts : List PaAction) : List Person :=
  (acts.filterMap fun a =>
    match a with
    | .writeTable b => some b
    | _ => none).flatMap rowsOfBatch

/-- The draws one record consumes, in order: the age draw, the status draw,
a children draw only when the sampled age is at least 22, then the two
name-provider calls. -/
def recordTrace (p : Person) : List DrawEvent :=
  [.ageDraw, .statusDraw]
    ++ (if p.age < 22 then [] else [.childrenDraw])
    ++ [.nameDraw, .nameDraw]

/-- The per-record draw pattern asserted by the spec: unconditionally
age draw, status draw, children draw, then the name-provider calls. -/
def specRecordTrace (_ : Person) : List DrawEvent :=
  [.ageDraw, .statusDraw, .childrenDraw, .nameDraw, .nameDraw]

/-- Scoped-resource invariant of the writer: no close has been emitted inside
the loop, and the `created` flag tracks exactly whether the file-creating
action appears in the trace. -/
def WriterInv (st : PqSt) : Prop :=
  PaAction.close ∉ st.acts ∧ (st.created = true ↔ PaAction.createWriter ∈ st.acts)

/-- The five age brackets named by the spec: <22, 22–29, 30–44, 45–64, ≥65
(half-open on the lower bound). -/
def specInBracket (i : ℕ) (age : ℤ) : Bool :=
  match i with
  | 0 => decide (age < 22)
  | 1 => decide (22 ≤ age) && decide (age ≤ 29)
  | 2 => decide (30 ≤ age) && decide (age ≤ 44)
  | 3 => decide (45 ≤ age) && decide (age ≤ 64)
  | 4 => decide (65 ≤ age)
  | _ => false

/-- The five weight vectors of `choose_marital_status` in
`src/solutions/generate_fake_people.py`, indexed by bracket. -/
def solutionsBracketTable (i : ℕ) : List ℚ :=
  match i with
  | 0 => [94/100, 4/100, 1/100, 1/100]
  | 1 => [6/10, 35/100, 3/100, 2/100]
  | 2 => [25/100, 65/100, 7/100, 3/100]
  | 3 => [15/100, 7/10, 1/10, 5/100]
  | _ => [1/10, 65/100, 1/10, 15/100]

/-- The five weight vectors of `choose_marital_status` in
`generate_fake_people_Version2.py`, indexed by bracket. -/
def v2BracketTable (i : ℕ) : List ℚ :=
  match i with
  | 0 => [95/100, 3/100, 1/100, 1/100]
  | 1 => [55/100, 40/100, 3/100, 2/100]
  | 2 => [20/100, 70/100, 7/100, 3/100]
  | 3 => [15/100, 70/100, 10/100, 5/100]
  | _ => [10/100, 60/100, 10/100, 20/100]

/-- Concrete engine tape for witnesses: every triangular call yields 20,
every uniform 0. -/
def rngW : Rng := ⟨fun _ => 20, fun _ => 0⟩

/-- Concrete engine tape whose triangular calls yield 18 (a below-22 age). -/
def rngLow : Rng := ⟨fun _ => 18, fun _ => 0⟩

/-- Concrete name tape for witnesses. -/
def fakW : Fak := ⟨fun _ => "x"⟩

/-- Concrete person records for witnesses. -/
def pW : Person := ⟨"a", "b", "single", 20, 0⟩

def pW2 : Person := ⟨"c", "d", "married", 30, 1⟩

/-!
### Helper lemmas
-/
lemma bisectRightAux_le (a : List ℚ) (x : ℚ) :
    ∀ (fuel lo hi : ℕ), lo ≤ hi → bisectRightAux a x fuel lo hi ≤ hi := by
  intro fuel
  induction fuel with
  | zero =>
      intro lo hi hlh
      simpa [bisectRightAux] using hlh
  | succ k ih =>
      intro lo hi hlh
      unfold bisectRightAux
      by_cases h : lo < hi
      · simp only [h, if_true, ite_true]
        split
        · exact le_trans (ih lo ((lo + hi) / 2) (by omega)) (by omega)
        · exact ih ((lo + hi) / 2 + 1) hi (by omega)
      · simpa [h] using hlh

lemma bisectRight_le (a : List ℚ) (x : ℚ) (lo hi : ℕ) (hlh : lo ≤ hi) :
    bisectRight a x lo hi ≤ hi :=
  bisectRightAux_le a x (hi - lo) lo hi hlh

lemma choicesOne_mem (population : List α) (dflt : α) (w : List ℚ) (u : ℚ)
    (h : population ≠ []) : choicesOne population dflt w u ∈ population := by
  unfold choicesOne
  have hlen : 0 < population.length := List.length_pos.mpr h
  have hb := bisectRight_le (cumSum w) (u * ((cumSum w).getLast?).getD 0)
    0 (population.length - 1) (by omega)
  have hlt : bisectRight (cumSum w) (u * ((cumSum w).getLast?).getD 0)
      0 (population.length - 1) < population.length := by omega
  rw [List.getD_eq_getElem?_getD, List.getElem?_eq_getElem hlt]
  simp only [Option.getD_some]
  exact List.getElem_mem hlt

lemma rowsOfBatch_colsOf : ∀ l : List Person, rowsOfBatch (colsOf l) = l := by
  intro l
  induction l with
  | nil => rfl
  | cons p l ih =>
      simp only [colsOf, rowsOfBatch, List.zip, List.map_cons,
        List.zipWith_cons_cons, List.map] at ih ⊢
      rw [ih]

lemma appendRow_colsOf (l : List Person) (p : Person) :
    appendRow (colsOf l) p = colsOf (l ++ [p]) := by
  simp [appendRow, colsOf]

lemma succ_mod (n cs : ℕ) (hcs : 1 ≤ cs) :
    (n + 1) % cs = if n % cs + 1 = cs then 0 else n % cs + 1 := by
  have hlt : n % cs < cs := Nat.mod_lt _ (by omega)
  have h1 : (n + 1) % cs = (n % cs + 1) % cs := by
    conv_lhs => rw [← Nat.div_add_mod n cs, Nat.add_assoc,
      Nat.add_comm (cs * (n / cs)), Nat.add_mul_mod_self_left]
  rw [h1]
  by_cases h : n % cs + 1 = cs
  · simp [h, Nat.mod_self]
  · rw [if_neg h, Nat.mod_eq_of_lt (by omega)]

lemma flushedRows_append (a b : List PaAction) :
    flushedRows (a ++ b) = flushedRows a ++ flushedRows b := by
  simp [flushedRows, List.filterMap_append]

lemma flushedRows_pqFlush (st : PqSt) :
    flushedRows (pqFlush st).acts = flushedRows st.acts ++ rowsOfBatch st.batch := by
  by_cases h : st.created <;>
    simp [pqFlush, h, flushedRows_append, flushedRows]

lemma genStep_trace (prof : Profile) (rng : Rng) (fak : Fak) (c : Cursor) :
    (genStep prof rng fak c).2.trace
      = c.trace ++ recordTrace (genStep prof rng fak c).1 := by
  unfold genStep sample_age choose_marital_status sample_children
    consumeTri consumeUni consumeFak recordTrace
  by_cases h : pyint (rng.tri c.triPos) < 22 <;> simp [h]

lemma genStep_age (prof : Profile) (rng : Rng) (fak : Fak) (c : Cursor) :
    (genStep prof rng fak c).1.age = pyint (rng.tri c.triPos) := by
  unfold genStep sample_age choose_marital_status sample_children
    consumeTri consumeUni consumeFak
  by_cases h : pyint (rng.tri c.triPos) < 22 <;> simp [h]

lemma genStep_children_zero (prof : Profile) (rng : Rng) (fak : Fak) (c : Cursor)
    (h : (genStep prof rng fak c).1.age < 22) :
    (genStep prof rng fak c).1.number_of_children = 0 := by
  rw [genStep_age] at h
  unfold genStep sample_age choose_marital_status sample_children
    consumeTri consumeUni consumeFak
  simp [h]

lemma genStep_status_mem (prof : Profile) (rng : Rng) (fak : Fak) (c : Cursor) :
    (genStep prof rng fak c).1.marital_status ∈ MARITAL_STATUSES := by
  unfold genStep sample_age choose_marital_status sample_children
    consumeTri consumeUni consumeFak
  by_cases h : pyint (rng.tri c.triPos) < 22 <;>
    simp only [h, if_true, if_false, ite_true, ite_false] <;>
    exact choicesOne_mem _ _ _ _ (by simp [MARITAL_STATUSES])

lemma genStep_children_mem (prof : Profile) (rng : Rng) (fak : Fak) (c : Cursor) :
    (genStep prof rng fak c).1.number_of_children ∈ ([0, 1, 2, 3, 4, 5] : List ℕ) := by
  unfold genStep sample_age choose_marital_status sample_children
    consumeTri consumeUni consumeFak
  by_cases h : pyint (rng.tri c.triPos) < 22
  · simp [h]
  · simp only [h, if_true, if_false, ite_true, ite_false]
    exact choicesOne_mem _ _ _ _ (by simp)

lemma genLoop_succ (prof : Profile) (rng : Rng) (fak : Fak) (n : ℕ) (c : Cursor) :
    genLoop prof rng fak (n + 1) c
      = ((genStep prof rng fak c).1
           :: (genLoop prof rng fak n (genStep prof rng fak c).2).1,
         (genLoop prof rng fak n (genStep prof rng fak c).2).2) := rfl

/-- Everything `genStep` guarantees pointwise holds of every record of a run. -/
lemma genLoop_forall (prof : Profile) (rng : Rng) (fak : Fak)
    (P : Person → Prop) (hstep : ∀ c, P (genStep prof rng fak c).1) :
    ∀ (n : ℕ) (c : Cursor), ∀ p ∈ (genLoop prof rng fak n c).1, P p := by
  intro n
  induction n with
  | zero => intro c p hp; simp [genLoop] at hp
  | succ n ih =>
      intro c p hp
      rw [genLoop_succ] at hp
      rcases List.mem_cons.mp hp with h | h
      · exact h ▸ hstep c
      · exact ih _ p h

lemma genLoop_trace (prof : Profile) (rng : Rng) (fak : Fak) :
    ∀ (n : ℕ) (c : Cursor),
      (genLoop prof rng fak n c).2.trace
        = c.trace ++ ((genLoop prof rng fak n c).1).flatMap recordTrace := by
  intro n
  induction n with
  | zero => intro c; simp [genLoop]
  | succ n ih =>
      intro c
      rw [genLoop_succ]
      simp only [List.flatMap_cons]
      rw [ih, genStep_trace, List.append_assoc]

lemma pqLoop_cons_ok (cs : ℕ) (hcs : cs ≠ 0) (p : Person)
    (rest : List (Except RowErr Person)) (st : PqSt) :
    pqLoop cs (.ok p :: rest) st =
      if (st.count + 1) % cs = 0 then
        pqLoop cs rest
          (pqFlush { st with batch := appendRow st.batch p, count := st.count + 1 })
      else
        pqLoop cs rest { st with batch := appendRow st.batch p, count := st.count + 1 } := by
  simp [pqLoop, pymod, hcs]

/-- Loop invariant of the buffered columnar loop on an error-free stream with
a positive chunk size: the buffer holds exactly the rows accumulated since the
last flush (`count % chunk_size` many), and flushed rows plus buffered rows
account for every row consumed, in order. -/
lemma pqLoop_ok_spec (cs : ℕ) (hcs : 1 ≤ cs) :
    ∀ (rows buf : List Person) (st : PqSt),
      st.batch = colsOf buf → st.count % cs = buf.length →
      (pqLoop cs (rows.map Except.ok) st).2 = none ∧
      ∃ buf',
        (pqLoop cs (rows.map Except.ok) st).1.batch = colsOf buf' ∧
        (pqLoop cs (rows.map Except.ok) st).1.count % cs = buf'.length ∧
        flushedRows (pqLoop cs (rows.map Except.ok) st).1.acts ++ buf'
          = flushedRows st.acts ++ buf ++ rows := by
  intro rows
  induction rows with
  | nil =>
      intro buf st hbatch hcount
      refine ⟨rfl, buf, hbatch, hcount, by simp [pqLoop]⟩
  | cons r rest ih =>
      intro buf st hbatch hcount
      simp only [List.map_cons]
      rw [pqLoop_cons_ok cs (by omega)]
      have hsucc := succ_mod st.count cs hcs
      rw [hcount] at hsucc
      have hblen : buf.length < cs := by
        have := Nat.mod_lt st.count (show 0 < cs by omega)
        omega
      by_cases h0 : (st.count + 1) % cs = 0
      · rw [if_pos h0]
        obtain ⟨herr, buf', h1, h2, h3⟩ :=
          ih [] (pqFlush { st with batch := appendRow st.batch r, count := st.count + 1 })
            rfl (by simp [pqFlush, h0])
        refine ⟨herr, buf', h1, h2, ?_⟩
        rw [h3, flushedRows_pqFlush]
        simp only [hbatch, appendRow_colsOf, rowsOfBatch_colsOf]
        simp [List.append_assoc]
      · rw [if_neg h0]
        have hc1 : (st.count + 1) % cs = buf.length + 1 := by
          by_cases hfull : buf.length + 1 = cs
          · exact absurd (by rw [hsucc, if_pos hfull]) h0
          · rw [hsucc, if_neg hfull]
        obtain ⟨herr, buf', h1, h2, h3⟩ :=
          ih (buf ++ [r]) { st with batch := appendRow st.batch r, count := st.count + 1 }
            (by simp [hbatch, appendRow_colsOf])
            (by simp [hc1])
        refine ⟨herr, buf', h1, h2, ?_⟩
        rw [h3]
        simp [List.append_assoc]

lemma flushedRows_close (acts : List PaAction) (b : Bool) :
    flushedRows (acts ++ (if b then [PaAction.close] else [])) = flushedRows acts := by
  cases b <;> simp [flushedRows_append, flushedRows]

/-- On an error-free stream with a positive chunk size, the columnar output
contains exactly the input rows, in order. -/
lemma write_parquet_flushed (rows : List Person) (cs : ℕ) (hcs : 1 ≤ cs) :
    (write_parquet true (rows.map Except.ok) cs).1 = none ∧
    flushedRows (write_parquet true (rows.map Except.ok) cs).2 = rows := by
  obtain ⟨herr, buf', hbatch, hcount, hflush⟩ :=
    pqLoop_ok_spec cs hcs rows [] pqInit rfl (by simp [pqInit])
  have hinit : flushedRows pqInit.acts = [] := rfl
  rw [hinit] at hflush
  simp only [List.nil_append] at hflush
  constructor
  · simp [write_parquet, herr]
  · simp only [write_parquet, if_pos, flushedRows_close]
    unfold pqTailFlush
    rw [herr]
    by_cases hb : buf' = []
    · have hname : (pqLoop cs (rows.map Except.ok) pqInit).1.batch.name = [] := by
        rw [hbatch, hb]; rfl
      simp only [hname, ne_eq, not_true_eq_false, if_neg, not_false_eq_true,
        ite_false, ite_not]
      simp only [hb, List.append_nil] at hflush
      simpa using hflush
    · have hname : (pqLoop cs (rows.map Except.ok) pqInit).1.batch.name ≠ [] := by
        rw [hbatch]
        simpa [colsOf] using hb
      simp only [hname, ne_eq, not_false_eq_true, ite_true, if_pos]
      rw [flushedRows_pqFlush, hbatch, rowsOfBatch_colsOf]
      simpa using hflush

/-- With a positive chunk size the `ZeroDivisionError` branch is unreachable,
whatever the stream contains. -/
lemma pqLoop_no_zeroDiv (cs : ℕ) (hcs : 1 ≤ cs) :
    ∀ (rows : List (Except RowErr Person)) (st : PqSt),
      (pqLoop cs rows st).2 ≠ some PqErr.zeroDivision := by
  intro rows
  induction rows with
  | nil => intro st; simp [pqLoop]
  | cons r rest ih =>
      intro st
      cases r with
      | error e => simp [pqLoop]
      | ok p =>
          rw [pqLoop_cons_ok cs (by omega)]
          by_cases h0 : (st.count + 1) % cs = 0
          · rw [if_pos h0]; exact ih _
          · rw [if_neg h0]; exact ih _

lemma WriterInv_pqFlush (st : PqSt) (h : WriterInv st) : WriterInv (pqFlush st) := by
  obtain ⟨hcl, hcr⟩ := h
  cases hc : st.created
  · refine ⟨?_, ?_⟩
    · simp [pqFlush, hc, hcl]
    · simp [pqFlush, hc]
  · refine ⟨?_, ?_⟩
    · simp [pqFlush, hc, hcl]
    · simp [pqFlush, hc]
      exact hcr.mp hc

lemma WriterInv_pqLoop (cs : ℕ) :
    ∀ (rows : List (Except RowErr Person)) (st : PqSt),
      WriterInv st → WriterInv (pqLoop cs rows st).1 := by
  intro rows
  induction rows with
  | nil => intro st h; simpa [pqLoop] using h
  | cons r rest ih =>
      intro st h
      cases r with
      | error e => simpa [pqLoop] using h
      | ok p =>
          have h' : WriterInv (PqSt.mk (appendRow st.batch p) (st.count + 1)
            st.created st.acts) := h
          simp only [pqLoop]
          cases hm : pymod (st.count + 1) cs with
          | error e => exact h'
          | ok v =>
              dsimp only
              by_cases h0 : v = 0
              · rw [if_pos h0]
                exact ih _ (WriterInv_pqFlush _ h')
              · rw [if_neg h0]
                exact ih _ h'

lemma WriterInv_pqTailFlush (r : PqSt × Option PqErr) (h : WriterInv r.1) :
    WriterInv (pqTailFlush r) := by
  unfold pqTailFlush
  cases r.2 with
  | some e => exact h
  | none =>
      by_cases hn : r.1.batch.name ≠ [] <;> simp [hn]
      · exact WriterInv_pqFlush _ h
      · exact h

lemma le_pyint (m : ℤ) (q : ℚ) (h0 : 0 ≤ q) (h : (m : ℚ) ≤ q) : m ≤ pyint q := by
  rw [pyint, if_pos h0]
  exact Int.le_floor.mpr h

lemma pyint_le (q b : ℚ) (h0 : 0 ≤ q) (h : q ≤ b) : (pyint q : ℚ) ≤ b := by
  rw [pyint, if_pos h0]
  exact le_trans (Int.floor_le q) h

/-!
### Claim theorems and their witnesses
-/
/-- C1 (counterexample to the columnar half of the claim): for count = 0 the
columnar serializer performs no writer action at all — in particular the
file-creating `createWriter` action occurs zero times, so no "empty-but-valid
output file containing the schema" is produced. -/
theorem write_parquet_empty_creates_no_file :
    write_parquet true (([] : List Person).map Except.ok) 100000 = (none, []) ∧
    ((write_parquet true (([] : List Person).map Except.ok) 100000).2).count
        PaAction.createWriter = 0 := by
  decide

/-- C1 (amended): for count = 0 the delimited-text serializer writes exactly
the header line, while the columnar serializer emits no error and performs no
action whatsoever — the underlying writer is never instantiated, no output
file is created and no batch is written. -/
theorem count_zero_header_only_and_no_columnar_output
    (prof : Profile) (rng : Rng) (fak : Fak) (cs : ℕ) :
    write_csv_lines (generate_people prof rng fak 0).1 = [csvHeader] ∧
    write_csv_content (generate_people prof rng fak 0).1 = csvHeader ++ "\r\n" ∧
    write_parquet true (((generate_people prof rng fak 0).1).map Except.ok) cs
      = (none, []) := by
  have h0 : (generate_people prof rng fak 0).1 = [] := rfl
  rw [h0]
  refine ⟨rfl, rfl, ?_⟩
  simp [write_parquet, pqLoop, pqTailFlush, pqInit, emptyBatch]

/-- C2 (counterexample to the unconditional draw-order of the claim): on a
tape whose first triangular value is 18 the single generated record has age
below 22, so its children count is returned without consuming a draw — the
run's trace contains zero `childrenDraw` events while the spec's per-record
pattern age, status, children, names demands one. -/
theorem low_age_record_consumes_no_children_draw :
    (generate_people solutionsProfile rngLow fakW 1).1.length = 1 ∧
    (generate_people solutionsProfile rngLow fakW 1).2
      = [DrawEvent.ageDraw, DrawEvent.statusDraw, DrawEvent.nameDraw, DrawEvent.nameDraw] ∧
    ((generate_people solutionsProfile rngLow fakW 1).2).count DrawEvent.childrenDraw = 0 ∧
    (((generate_people solutionsProfile rngLow fakW 1).1).flatMap specRecordTrace).count
        DrawEvent.childrenDraw = 1 := by
  have htr : (generate_people solutionsProfile rngLow fakW 1).2
      = [DrawEvent.ageDraw, DrawEvent.statusDraw, DrawEvent.nameDraw, DrawEvent.nameDraw] := by
    simp [generate_people, genLoop, genStep, sample_age, choose_marital_status,
      sample_children, consumeTri, consumeUni, consumeFak, rngLow, pyint]
  have hl : (generate_people solutionsProfile rngLow fakW 1).1
      = [(genStep solutionsProfile rngLow fakW {}).1] := rfl
  refine ⟨by rw [hl]; rfl, htr, by rw [htr]; rfl, ?_⟩
  rw [hl]
  rfl

/-- C2 (amended): for identical engine tapes and name tapes (the
deterministic images of an identical seed, locale and profile), two runs
produce identical records and byte-identical delimited-text output; the
randomness is consumed per record in the strict order age draw, then
marital-status draw, then a children draw exactly when the sampled age is at
least 22 (skipped below 22), then the name-provider calls. -/
theorem run_determinism_and_draw_order
    (prof : Profile) (rng rng' : Rng) (fak fak' : Fak) (n : ℕ)
    (hr : rng' = rng) (hf : fak' = fak) :
    write_csv_content (generate_people prof rng fak n).1
      = write_csv_content (generate_people prof rng' fak' n).1 ∧
    generate_people prof rng fak n = generate_people prof rng' fak' n ∧
    (generate_people prof rng fak n).2
      = ((generate_people prof rng fak n).1).flatMap recordTrace := by
  rw [hr, hf]
  refine ⟨rfl, rfl, ?_⟩
  have h := genLoop_trace prof rng fak n {}
  simpa [generate_people] using h

/-- C2 witness: the determinism and draw-order theorem applied to a concrete
two-record run. -/
theorem run_determinism_and_draw_order_witness :
    write_csv_content (generate_people solutionsProfile rngW fakW 2).1
      = write_csv_content (generate_people solutionsProfile rngW fakW 2).1 ∧
    generate_people solutionsProfile rngW fakW 2
      = generate_people solutionsProfile rngW fakW 2 ∧
    (generate_people solutionsProfile rngW fakW 2).2
      = ((generate_people solutionsProfile rngW fakW 2).1).flatMap recordTrace :=
  run_determinism_and_draw_order solutionsProfile rngW rngW fakW fakW 2 rfl rfl

/-- C3: for every tape (hence every seed), count and chunk size at least 1,
the records present in the columnar output are exactly the generated records
in order, and the delimited-text output is the header plus exactly those
records serialized in the same order — so the two formats carry the same
records, field-for-field. -/
theorem cross_format_equivalence
    (prof : Profile) (rng : Rng) (fak : Fak) (n cs : ℕ) (hcs : 1 ≤ cs) :
    flushedRows (write_parquet true
        (((generate_people prof rng fak n).1).map Except.ok) cs).2
      = (generate_people prof rng fak n).1 ∧
    write_csv_lines (generate_people prof rng fak n).1
      = csvHeader :: ((generate_people prof rng fak n).1).map csvLine :=
  ⟨(write_parquet_flushed _ cs hcs).2, rfl⟩

/-- C3 witness: cross-format equivalence at a concrete one-record run with
chunk size 1. -/
theorem cross_format_equivalence_witness :
    flushedRows (write_parquet true
        (((generate_people solutionsProfile rngW fakW 1).1).map Except.ok) 1).2
      = (generate_people solutionsProfile rngW fakW 1).1 ∧
    write_csv_lines (generate_people solutionsProfile rngW fakW 1).1
      = csvHeader :: ((generate_people solutionsProfile rngW fakW 1).1).map csvLine :=
  cross_format_equivalence solutionsProfile rngW fakW 1 1 (by norm_num)

/-- C4: for every record sequence and every chunk size at least 1, the
concatenation of all flushed batches (including the partial trailing batch)
equals the input sequence in order; in particular chunk size 1 and any other
chunk size yield the same final output. -/
theorem chunked_write_batch_size_invariant
    (rows : List Person) (cs : ℕ) (hcs : 1 ≤ cs) :
    flushedRows (write_parquet true (rows.map Except.ok) cs).2 = rows ∧
    flushedRows (write_parquet true (rows.map Except.ok) 1).2
      = flushedRows (write_parquet true (rows.map Except.ok) cs).2 := by
  have h1 := (write_parquet_flushed rows 1 (by norm_num)).2
  have h2 := (write_parquet_flushed rows cs hcs).2
  exact ⟨h2, by rw [h1, h2]⟩

/-- C4 witness: batch-size invariance at a concrete two-record sequence with
chunk size 2 (one full batch) versus chunk size 1. -/
theorem chunked_write_batch_size_invariant_witness :
    flushedRows (write_parquet true ([pW, pW2].map Except.ok) 2).2 = [pW, pW2] ∧
    flushedRows (write_parquet true ([pW, pW2].map Except.ok) 1).2
      = flushedRows (write_parquet true ([pW, pW2].map Except.ok) 2).2 :=
  chunked_write_batch_size_invariant [pW, pW2] 2 (by norm_num)

/-- C5: under the engine contract that each triangular draw lies between the
profile's configured bounds, every generated record of either calibration
profile has an integer age within [18, configured maximum] (90 for the
solutions profile, 95 for the Version2 profile), and any record with age
below 22 has zero children. -/
theorem age_range_and_under_22_children_zero
    (prof : Profile) (rng : Rng) (fak : Fak) (n : ℕ)
    (hprof : prof = solutionsProfile ∨ prof = v2Profile)
    (htape : ∀ i, prof.ageLow ≤ rng.tri i ∧ rng.tri i ≤ prof.ageHigh) :
    solutionsProfile.ageLow = 18 ∧ solutionsProfile.ageHigh = 90 ∧
    v2Profile.ageLow = 18 ∧ v2Profile.ageHigh = 95 ∧
    ∀ p ∈ (generate_people prof rng fak n).1,
      18 ≤ p.age ∧ (p.age : ℚ) ≤ prof.ageHigh ∧
      (p.age < 22 → p.number_of_children = 0) := by
  refine ⟨rfl, rfl, rfl, rfl, ?_⟩
  have hlow : prof.ageLow = 18 := by
    rcases hprof with h | h <;> rw [h] <;> rfl
  have hstep := genLoop_forall prof rng fak
    (fun p => (∃ k, p.age = pyint (rng.tri k)) ∧
      (p.age < 22 → p.number_of_children = 0))
    (fun c => ⟨⟨c.triPos, (genStep_age prof rng fak c).symm⟩,
      genStep_children_zero prof rng fak c⟩) n {}
  intro p hp
  obtain ⟨⟨k, hk⟩, hch⟩ := hstep p hp
  obtain ⟨ht1, ht2⟩ := htape k
  rw [hlow] at ht1
  have h0 : (0 : ℚ) ≤ rng.tri k := le_trans (by norm_num) ht1
  refine ⟨?_, ?_, hch⟩
  · rw [hk]
    exact le_pyint 18 (rng.tri k) h0 (by exact_mod_cast ht1)
  · rw [hk]
    exact pyint_le (rng.tri k) prof.ageHigh h0 ht2

/-- C5 witness: the range theorem applied to a one-record run of the
solutions profile on a tape of constant triangular value 20. -/
theorem age_range_and_under_22_children_zero_witness :
    18 ≤ ((generate_people solutionsProfile rngW fakW 1).1.headI).age ∧
    (((generate_people solutionsProfile rngW fakW 1).1.headI).age : ℚ)
      ≤ solutionsProfile.ageHigh := by
  have h := age_range_and_under_22_children_zero solutionsProfile rngW fakW 1
    (Or.inl rfl)
    (fun i => ⟨by norm_num [solutionsProfile, rngW], by norm_num [solutionsProfile, rngW]⟩)
  have hl : (generate_people solutionsProfile rngW fakW 1).1
      = [(genStep solutionsProfile rngW fakW {}).1] := rfl
  have hm : (generate_people solutionsProfile rngW fakW 1).1.headI
      ∈ (generate_people solutionsProfile rngW fakW 1).1 := by
    rw [hl]
    exact List.mem_singleton.mpr rfl
  obtain ⟨-, -, -, -, h5⟩ := h
  exact ⟨(h5 _ hm).1, (h5 _ hm).2.1⟩

/-- C6: every generated record, under any calibration profile and any tape,
has a children count in the set 0..5 and a marital status among the four
values single, married, divorced, widowed. -/
theorem children_range_and_status_domain
    (prof : Profile) (rng : Rng) (fak : Fak) (n : ℕ) :
    ∀ p ∈ (generate_people prof rng fak n).1,
      p.number_of_children ∈ ([0, 1, 2, 3, 4, 5] : List ℕ) ∧
      p.marital_status ∈ MARITAL_STATUSES :=
  genLoop_forall prof rng fak
    (fun p => p.number_of_children ∈ ([0, 1, 2, 3, 4, 5] : List ℕ) ∧
      p.marital_status ∈ MARITAL_STATUSES)
    (fun c => ⟨genStep_children_mem prof rng fak c,
      genStep_status_mem prof rng fak c⟩) n {}

/-- C6 witness: the domain theorem applied to the first record of a concrete
one-record run. -/
theorem children_range_and_status_domain_witness :
    ((generate_people solutionsProfile rngW fakW 1).1.headI).number_of_children
      ∈ ([0, 1, 2, 3, 4, 5] : List ℕ) ∧
    ((generate_people solutionsProfile rngW fakW 1).1.headI).marital_status
      ∈ MARITAL_STATUSES := by
  have hl : (generate_people solutionsProfile rngW fakW 1).1
      = [(genStep solutionsProfile rngW fakW {}).1] := rfl
  have hm : (generate_people solutionsProfile rngW fakW 1).1.headI
      ∈ (generate_people solutionsProfile rngW fakW 1).1 := by
    rw [hl]
    exact List.mem_singleton.mpr rfl
  exact children_range_and_status_domain solutionsProfile rngW fakW 1 _ hm

/-- C7: every integer age lies in exactly one of the five spec brackets
(<22, 22–29, 30–44, 45–64, ≥65), and in both calibration profiles the
marital-status weight vector chosen by the ascending first-match `age < X`
chain is exactly the vector indexed by that bracket. -/
theorem status_weights_selected_by_bracket (age : ℤ) :
    (∃ i, i < 5 ∧ specInBracket i age = true) ∧
    (∀ i j, i < 5 → j < 5 → specInBracket i age = true →
      specInBracket j age = true → i = j) ∧
    (∀ i, i < 5 → specInBracket i age = true →
      solutions_status_weights age = solutionsBracketTable i ∧
      v2_status_weights age = v2BracketTable i) := by
  refine ⟨?_, ?_, ?_⟩
  · by_cases h0 : age < 22
    · exact ⟨0, by norm_num, by simp [specInBracket, h0]⟩
    · by_cases h1 : age < 30
      · refine ⟨1, by norm_num, ?_⟩
        simp only [specInBracket, Bool.and_eq_true, decide_eq_true_eq]
        omega
      · by_cases h2 : age < 45
        · refine ⟨2, by norm_num, ?_⟩
          simp only [specInBracket, Bool.and_eq_true, decide_eq_true_eq]
          omega
        · by_cases h3 : age < 65
          · refine ⟨3, by norm_num, ?_⟩
            simp only [specInBracket, Bool.and_eq_true, decide_eq_true_eq]
            omega
          · refine ⟨4, by norm_num, ?_⟩
            simp only [specInBracket, decide_eq_true_eq]
            omega
  · intro i j hi hj hbi hbj
    interval_cases i <;> interval_cases j <;>
      simp only [specInBracket, Bool.and_eq_true, decide_eq_true_eq] at hbi hbj <;>
      omega
  · intro i hi hb
    interval_cases i <;>
      simp only [specInBracket, Bool.and_eq_true, decide_eq_true_eq] at hb
    · have h22 : age < 22 := hb
      constructor <;>
        simp [solutions_status_weights, v2_status_weights,
          solutionsBracketTable, v2BracketTable, h22]
    · have h22 : ¬ age < 22 := by omega
      have h30 : age < 30 := by omega
      constructor <;>
        simp [solutions_status_weights, v2_status_weights,
          solutionsBracketTable, v2BracketTable, h22, h30]
    · have h22 : ¬ age < 22 := by omega
      have h30 : ¬ age < 30 := by omega
      have h45 : age < 45 := by omega
      constructor <;>
        simp [solutions_status_weights, v2_status_weights,
          solutionsBracketTable, v2BracketTable, h22, h30, h45]
    · have h22 : ¬ age < 22 := by omega
      have h30 : ¬ age < 30 := by omega
      have h45 : ¬ age < 45 := by omega
      have h65 : age < 65 := by omega
      constructor <;>
        simp [solutions_status_weights, v2_status_weights,
          solutionsBracketTable, v2BracketTable, h22, h30, h45, h65]
    · have h22 : ¬ age < 22 := by omega
      have h30 : ¬ age < 30 := by omega
      have h45 : ¬ age < 45 := by omega
      have h65 : ¬ age < 65 := by omega
      constructor <;>
        simp [solutions_status_weights, v2_status_weights,
          solutionsBracketTable, v2BracketTable, h22, h30, h45, h65]

/-- C7 witness: age 25 falls in bracket 1 (22–29) and both profiles select
their bracket-1 weight vector for it. -/
theorem status_weights_selected_by_bracket_witness :
    solutions_status_weights 25 = solutionsBracketTable 1 ∧
    v2_status_weights 25 = v2BracketTable 1 :=
  (status_weights_selected_by_bracket 25).2.2 1 (by norm_num) (by decide)

/-- C8: with the columnar backend unavailable, `write_parquet` emits exactly
one diagnostic and a non-zero process exit, and performs none of the writer
actions — no output file creation, no batch write, no close — whatever the
requested rows and chunk size. -/
theorem missing_backend_fails_fast (rows : List (Except RowErr Person)) (cs : ℕ) :
    write_parquet false rows cs =
      (some PqErr.exitedNoParquet,
       [PaAction.diag "Parquet support requires pyarrow. Install with: pip install pyarrow",
        PaAction.exit 1]) ∧
    PaAction.createWriter ∉ (write_parquet false rows cs).2 ∧
    (∀ b, PaAction.writeTable b ∉ (write_parquet false rows cs).2) ∧
    PaAction.close ∉ (write_parquet false rows cs).2 := by
  refine ⟨rfl, ?_, ?_, ?_⟩ <;> simp [write_parquet]

/-- C8 witness: the fail-fast theorem applied to a concrete input. -/
theorem missing_backend_fails_fast_witness :
    write_parquet false [Except.ok pW] 100000 =
      (some PqErr.exitedNoParquet,
       [PaAction.diag "Parquet support requires pyarrow. Install with: pip install pyarrow",
        PaAction.exit 1]) :=
  (missing_backend_fails_fast [Except.ok pW] 100000).1

/-- C9: in every execution of the columnar serializer with the backend
available — including executions aborted by a mid-stream row error — the
writer is closed exactly once when it was created and never otherwise, and
when it was created the close is the final action, i.e. it happens before
the error propagates to the caller. -/
theorem writer_closed_exactly_once (rows : List (Except RowErr Person)) (cs : ℕ) :
    ((write_parquet true rows cs).2).count PaAction.close
      = (if PaAction.createWriter ∈ (write_parquet true rows cs).2 then 1 else 0) ∧
    (PaAction.createWriter ∈ (write_parquet true rows cs).2 →
      ((write_parquet true rows cs).2).getLast? = some PaAction.close) := by
  have hInv : WriterInv (pqTailFlush (pqLoop cs rows pqInit)) :=
    WriterInv_pqTailFlush _
      (WriterInv_pqLoop cs rows pqInit ⟨by simp [pqInit], by simp [pqInit]⟩)
  obtain ⟨hcl, hcr⟩ := hInv
  have hacts : (write_parquet true rows cs).2
      = (pqTailFlush (pqLoop cs rows pqInit)).acts
        ++ (if (pqTailFlush (pqLoop cs rows pqInit)).created
            then [PaAction.close] else []) := by
    simp [write_parquet]
  cases hc : (pqTailFlush (pqLoop cs rows pqInit)).created
  · rw [hacts, hc]
    simp only [ite_false, if_neg, Bool.false_eq_true, not_false_eq_true,
      List.append_nil]
    have hnotmem : PaAction.createWriter ∉ (pqTailFlush (pqLoop cs rows pqInit)).acts := by
      intro hmem
      have := hcr.mpr hmem
      rw [hc] at this
      exact Bool.false_ne_true this
    constructor
    · rw [if_neg hnotmem]
      exact List.count_eq_zero.mpr hcl
    · intro hmem
      exact absurd hmem hnotmem
  · rw [hacts, hc]
    simp only [ite_true, if_pos]
    have hmem : PaAction.createWriter
        ∈ (pqTailFlush (pqLoop cs rows pqInit)).acts ++ [PaAction.close] := by
      exact List.mem_append_left _ (hcr.mp hc)
    constructor
    · rw [if_pos hmem, List.count_append]
      rw [List.count_eq_zero.mpr hcl]
      rfl
    · intro _
      exact List.getLast?_concat _

/-- C9 witness: a run whose first row flushes (creating the writer) and whose
second row raises mid-stream still closes the writer exactly once, as the
final action before the error propagates. -/
theorem writer_closed_exactly_once_witness :
    ((write_parquet true [Except.ok pW, Except.error RowErr.ioError] 1).2).count
        PaAction.close = 1 ∧
    ((write_parquet true [Except.ok pW, Except.error RowErr.ioError] 1).2).getLast?
      = some PaAction.close := by
  have h := writer_closed_exactly_once [Except.ok pW, Except.error RowErr.ioError] 1
  have hmem : PaAction.createWriter
      ∈ (write_parquet true [Except.ok pW, Except.error RowErr.ioError] 1).2 := by
    decide
  exact ⟨by rw [h.1, if_pos hmem], h.2 hmem⟩

/-- C10: `write_parquet` has the unstated precondition chunk_size ≥ 1: on any
non-empty stream a chunk size of 0 raises `ZeroDivisionError` from the
`count % chunk_size` flush test right after buffering the first record and
before any writer action — while with chunk_size ≥ 1 the division-error
branch is unreachable for every stream. -/
theorem chunk_size_zero_division_error
    (p : Person) (rest rows : List (Except RowErr Person)) (cs : ℕ)
    (hcs : 1 ≤ cs) :
    write_parquet true (Except.ok p :: rest) 0 = (some PqErr.zeroDivision, []) ∧
    (pqLoop 0 (Except.ok p :: rest) pqInit).1.batch = appendRow emptyBatch p ∧
    (pqLoop 0 (Except.ok p :: rest) pqInit).1.count = 1 ∧
    (write_parquet true rows cs).1 ≠ some PqErr.zeroDivision := by
  refine ⟨?_, rfl, rfl, ?_⟩
  · simp [write_parquet, pqLoop, pymod, pqTailFlush, pqInit]
  · have h := pqLoop_no_zeroDiv cs hcs rows pqInit
    simpa [write_parquet] using h

/-- C10 witness: the precondition theorem at a concrete one-record stream. -/
theorem chunk_size_zero_division_error_witness :
    write_parquet true [Except.ok pW] 0 = (some PqErr.zeroDivision, []) ∧
    (write_parquet true [Except.ok pW] 1).1 ≠ some PqErr.zeroDivision := by
  have h := chunk_size_zero_division_error pW [] [Except.ok pW] 1 (by norm_num)
  exact ⟨h.1, h.2.2.2⟩
